import Mathlib

set_option maxRecDepth 8192

/-!
Verification of the goodlark spreadsheet client (src/goodlark_v1.1/goodlark.py).
The Python class is shallowly embedded: cell values become an inductive type,
the column-letter dictionaries become list lookups, grids become lists of rows,
raised exceptions become Except results, and the remote API becomes an
abstract response function.
-/

/-- Embeds the Python cell values handled by goodlark: strings, numbers, and
the null-like values (None / NaN / absent) that pd.isna recognizes. -/
inductive CellValue where
  | text (s : String)
  | num (n : Int)
  | null
deriving DecidableEq, Repr

/-- Embeds pd.isna on the supported cell values. -/
def isNa : CellValue → Bool
  | .null => true
  | _ => false

/-- Embeds the empty-value replacement applied in write_multi_data and
batch_write_multi_data: a null-like cell becomes the empty string. -/
def sanitize (v : CellValue) : CellValue :=
  if isNa v then .text "" else v

/-- The characters A..Z used by generate_col_order_info. -/
def colChars : List Char := (List.range 26).map (fun i => Char.ofNat (65 + i))

/-- Embeds A_Z_list of generate_col_order_info: the single letters A..Z. -/
def A_Z_list : List String := colChars.map (fun c => String.mk [c])

/-- Embeds AA_ZZ_list of generate_col_order_info: the double letters AA..ZZ,
outer letter first. -/
def AA_ZZ_list : List String :=
  colChars.flatMap (fun c => colChars.map (fun d => String.mk [c, d]))

/-- Embeds A_ZZ_list of generate_col_order_info: singles then doubles. -/
def A_ZZ_list : List String := A_Z_list ++ AA_ZZ_list

/-- Embeds the col_to_order dictionary: a column letter maps to its position
in A_ZZ_list; a missing key is a KeyError, modelled as none. -/
def col_to_order (col : String) : Option Nat :=
  if col ∈ A_ZZ_list then some (A_ZZ_list.indexOf col) else none

/-- Embeds the order_to_col dictionary: an ordinal maps to the letter at that
position of A_ZZ_list; a missing key is a KeyError, modelled as none. -/
def order_to_col (o : Nat) : Option String := A_ZZ_list.get? o

/-- Decodes a column string of the enumeration to its expected ordinal; used
only as a proof device to establish that A_ZZ_list has no duplicates. -/
def colOrd (s : String) : Nat :=
  match s.data with
  | [c] => c.toNat - 65
  | [c, d] => 26 + 26 * (c.toNat - 65) + (d.toNat - 65)
  | _ => 702

theorem A_ZZ_list_length : A_ZZ_list.length = 702 := by decide

theorem A_ZZ_list_map_colOrd : A_ZZ_list.map colOrd = List.range 702 := by decide

theorem A_ZZ_list_nodup : A_ZZ_list.Nodup := by
  have h := A_ZZ_list_map_colOrd
  have : (A_ZZ_list.map colOrd).Nodup := by
    rw [h]; exact List.nodup_range 702
  exact this.of_map colOrd

/-- Claim C3: over the 702-entry enumeration A..Z then AA..ZZ, the two
dictionaries produced by generate_col_order_info are mutually inverse
bijections: looking an ordinal up in order_to_col and mapping the letters
back through col_to_order returns the same ordinal, and conversely for
every letter string of the enumeration. -/
theorem claim_C3 :
    A_ZZ_list.length = 702 ∧
    (∀ o : Nat, o < 702 → (order_to_col o).bind col_to_order = some o) ∧
    (∀ L : String, L ∈ A_ZZ_list → (col_to_order L).bind order_to_col = some L) := by
  refine ⟨A_ZZ_list_length, ?_, ?_⟩
  · intro o ho
    have ho2 : o < A_ZZ_list.length := by rw [A_ZZ_list_length]; exact ho
    rw [order_to_col, List.get?_eq_getElem?, List.getElem?_eq_getElem ho2]
    simp only [Option.some_bind, col_to_order]
    rw [if_pos (A_ZZ_list.getElem_mem ho2)]
    rw [List.indexOf_getElem A_ZZ_list_nodup o ho2]
  · intro L hL
    rw [col_to_order, if_pos hL]
    simp only [Option.some_bind, order_to_col]
    rw [List.get?_eq_getElem?]
    exact List.getElem?_indexOf hL

/-- Witness for claim C3 at concrete inputs: ordinal 27 maps to the letters
at position 27 and back, and the letters AB map to ordinal 27 and back. -/
theorem claim_C3_witness :
    (27 < 702 ∧ (order_to_col 27).bind col_to_order = some 27) ∧
    ("AB" ∈ A_ZZ_list ∧ (col_to_order "AB").bind order_to_col = some "AB") :=
  ⟨⟨by decide, claim_C3.2.1 27 (by decide)⟩,
   ⟨by decide, claim_C3.2.2 "AB" (by decide)⟩⟩

/-- Embeds the search of the regex ([A-Za-z]+)(\d+) on the character list of
start_loc: the scan tries each start position from the left; a position
matches when it starts a maximal letter run that is directly followed by a
digit, and the two captured groups are the letter run and the digit run. -/
def findColRowMatch : List Char → Option (List Char × List Char)
  | [] => none
  | c :: rest =>
    if c.isAlpha then
      let letters := (c :: rest).takeWhile Char.isAlpha
      let after := (c :: rest).dropWhile Char.isAlpha
      if (after.takeWhile Char.isDigit) ≠ [] then
        some (letters, after.takeWhile Char.isDigit)
      else findColRowMatch rest
    else findColRowMatch rest

/-- Embeds int applied to a string of decimal digits. -/
def natOfDigits (ds : List Char) : Nat :=
  ds.foldl (fun n c => 10 * n + (c.toNat - 48)) 0

/-- Embeds the shared start-location parse of complete_data_range and
batch_write_multi_data: regex search for letters followed by digits, the
letters upper-cased, the digits read as an integer. A failed search is a
raised AttributeError, modelled as none. -/
def parse_start_loc (s : String) : Option (String × Nat) :=
  (findColRowMatch s.data).map
    (fun g => (String.mk (g.1.map Char.toUpper), natOfDigits g.2))

/-- Embeds the shared row check of complete_data_range, write_multi_data and
batch_write_multi_data: every row must be non-empty, and the set of row
lengths must have exactly one element. -/
def rowLenCheck (g : List (List CellValue)) : Except String Unit :=
  if g.any List.isEmpty then .error "row data must not be empty"
  else if (g.map List.length).dedup.length ≠ 1 then
    .error "all rows must have the same length"
  else .ok ()

/-- Embeds complete_data_range: parse the start location, validate the grid,
then extend the origin by the grid extent through the two column
dictionaries, producing a textual range. Each raise site keeps its own
error message. -/
def complete_data_range (start_loc : String) (input_data : List (List CellValue)) :
    Except String String :=
  match parse_start_loc start_loc with
  | none => .error "Failed: complete_data_range. no letter-digit match in start_loc"
  | some (start_letter, start_number) =>
    match rowLenCheck input_data with
    | .error e => .error e
    | .ok _ =>
      let row_num := input_data.length
      let col_num := (input_data.headD []).length
      match col_to_order start_letter with
      | none => .error "Failed: complete_data_range. start column not in enumeration"
      | some o =>
        match order_to_col (o + col_num - 1) with
        | none => .error "Failed: complete_data_range. end column out of range"
        | some end_letter =>
          .ok (start_letter ++ Nat.repr start_number ++ ":" ++
               end_letter ++ Nat.repr (start_number + row_num - 1))

example : parse_start_loc "C10" = some ("C", 10) := by decide
example : parse_start_loc "c10" = some ("C", 10) := by decide
example : parse_start_loc "10" = none := by decide
example : complete_data_range "A1"
    [[.text "a", .null], [.num 1, .num 2], [.null, .text "b"]] = .ok "A1:B3" := rfl

/-- Embeds the inputs accepted by the write methods: a pandas DataFrame
(column labels plus value rows), a dict of column label to value sequence
in insertion order, or an already two-dimensional list. -/
inductive InputData where
  | df (cols : List CellValue) (rows : List (List CellValue))
  | dict (items : List (CellValue × List CellValue))
  | lists (rows : List (List CellValue))

/-- Embeds to_2d_list: a DataFrame becomes its column-label row followed by
its value rows; a dict becomes its key row followed by one reconstructed row
per sample index, after checking that all value sequences have equal length;
a plain list input raises a ValueError. -/
def to_2d_list (input : InputData) : Except String (List (List CellValue)) :=
  match input with
  | .df cols rows => .ok (cols :: rows)
  | .dict items =>
    let key_list := items.map Prod.fst
    let value_list := items.map Prod.snd
    let value_lengths := value_list.map List.length
    if value_lengths.dedup.length ≠ 1 then
      .error "Failed: to_2d_list. all dict values must have the same length"
    else
      let sample_num := value_lengths.headD 0
      .ok (key_list ::
        (List.range sample_num).map (fun i => value_list.map (fun v => v.getD i .null)))
  | .lists _ => .error "Failed: to_2d_list. input must be a dataframe or dict"

/-- Embeds the input dispatch of write_multi_data and batch_write_multi_data:
a DataFrame or dict goes through to_2d_list, a plain list passes through. -/
def formatInput (input : InputData) : Except String (List (List CellValue)) :=
  match input with
  | .lists rows => .ok rows
  | other => to_2d_list other

/-- Embeds the per-cell empty-value replacement over a whole grid. -/
def sanitizeGrid (g : List (List CellValue)) : List (List CellValue) :=
  g.map (fun row => row.map sanitize)

/-- Embeds one write payload sent to the values endpoint: the textual range
prefixed with the sheet id, and the rectangular values array. -/
structure Payload where
  range : String
  values : List (List CellValue)
deriving DecidableEq, Repr

/-- Embeds write_multi_data up to the network boundary: validate, sanitize,
compute the full range from the start location, and build the payload. -/
def write_multi_payload (sheet_id : String) (start_loc : String) (input : InputData) :
    Except String Payload :=
  match formatInput input with
  | .error e => .error e
  | .ok formatted =>
    match rowLenCheck formatted with
    | .error e => .error e
    | .ok _ =>
      let standard := sanitizeGrid formatted
      match complete_data_range start_loc standard with
      | .error e => .error e
      | .ok dr => .ok ⟨sheet_id ++ "!" ++ dr, standard⟩

/-- Embeds a Python range call with a positive step: the documented closed
form is the arithmetic progression of ceil((stop-start)/step) terms. A zero
step raises in Python and is modelled as the empty list. -/
def pyRange (start stop step : Nat) : List Nat :=
  if step = 0 then [] else List.range' start ((stop - start + step - 1) / step) step

/-- Embeds the batch slicing of batch_write_multi_data: for each slice start
produced by range(0, total_rows, batch_size), the slice of at most
batch_size rows beginning there. -/
def write_chunks (standard : List (List CellValue)) (batch_size : Nat) :
    List (List (List CellValue)) :=
  (pyRange 0 standard.length batch_size).map
    (fun i => (standard.drop i).take batch_size)

/-- Embeds the per-chunk start rows of batch_write_multi_data: the parsed
start row plus the number of rows in all earlier chunks. -/
def write_origins (start_number total batch_size : Nat) : List Nat :=
  (pyRange 0 total batch_size).map (fun i => start_number + i)

/-- Maps a fallible function over a list, stopping at the first error, as a
Python for loop over network calls does. -/
def mapE (f : α → Except String β) : List α → Except String (List β)
  | [] => .ok []
  | x :: xs =>
    match f x with
    | .error e => .error e
    | .ok y =>
      match mapE f xs with
      | .error e => .error e
      | .ok ys => .ok (y :: ys)

/-- Embeds the planning part of batch_write_multi_data: validate and sanitize
the grid, parse the start location once, then for each slice start compute
the chunk and its own range from the shifted origin, keeping the column
letters fixed. -/
def batch_write_plan (sheet_id : String) (start_loc : String) (input : InputData)
    (batch_size : Nat) : Except String (List Payload) :=
  match formatInput input with
  | .error e => .error e
  | .ok formatted =>
    match rowLenCheck formatted with
    | .error e => .error e
    | .ok _ =>
      let standard := sanitizeGrid formatted
      match parse_start_loc start_loc with
      | none => .error "Failed: batch_write_multi_data. no letter-digit match in start_loc"
      | some (start_letter, start_number) =>
        mapE (fun i =>
          match complete_data_range (start_letter ++ Nat.repr (start_number + i))
              ((standard.drop i).take batch_size) with
          | .error e => .error e
          | .ok dr => .ok (⟨sheet_id ++ "!" ++ dr, (standard.drop i).take batch_size⟩ : Payload))
          (pyRange 0 standard.length batch_size)

example : batch_write_plan "S" "C10" (.lists (List.replicate 5 [CellValue.num 1])) 2 =
    .ok [⟨"S!C10:C11", List.replicate 2 [CellValue.num 1]⟩,
         ⟨"S!C12:C13", List.replicate 2 [CellValue.num 1]⟩,
         ⟨"S!C14:C14", [[CellValue.num 1]]⟩] := rfl

theorem pyRange_length (s t step : Nat) (h : step ≠ 0) :
    (pyRange s t step).length = (t - s + step - 1) / step := by
  simp [pyRange, h]

theorem ceil_mul_cover (len bs : Nat) (hbs : 1 ≤ bs) :
    len ≤ bs * ((len + bs - 1) / bs) := by
  have h1 := Nat.div_add_mod (len + bs - 1) bs
  have h2 : (len + bs - 1) % bs < bs := Nat.mod_lt _ hbs
  generalize bs * ((len + bs - 1) / bs) = p at h1 ⊢
  omega

theorem mul_lt_of_lt_ceil {len bs k : Nat} (hbs : 1 ≤ bs)
    (hk : k < (len + bs - 1) / bs) : bs * k < len := by
  have h1 := Nat.div_add_mod (len + bs - 1) bs
  have h2 : (len + bs - 1) % bs < bs := Nat.mod_lt _ hbs
  have h3 : bs * (k + 1) ≤ bs * ((len + bs - 1) / bs) :=
    Nat.mul_le_mul_left bs hk
  rw [Nat.mul_succ] at h3
  generalize bs * ((len + bs - 1) / bs) = p at h1 h3
  generalize bs * k = a at h3 ⊢
  omega

theorem range'_chunks_take_flatten (l : List α) (bs : Nat) :
    ∀ (k s : Nat),
      ((List.range' s k bs).map (fun i => (l.drop i).take bs)).flatten =
        (l.drop s).take (bs * k)
  | 0, s => by simp
  | k + 1, s => by
    rw [List.range'_succ, List.map_cons, List.flatten_cons,
      range'_chunks_take_flatten l bs k (s + bs), ← List.drop_drop,
      Nat.mul_succ, Nat.add_comm (bs * k) bs, List.take_add]

theorem range'_chunks_flatten (l : List α) (bs : Nat) (k s : Nat)
    (hcov : l.length ≤ s + bs * k) :
    ((List.range' s k bs).map (fun i => (l.drop i).take bs)).flatten = l.drop s := by
  rw [range'_chunks_take_flatten l bs k s]
  exact List.take_of_length_le (by rw [List.length_drop]; omega)

theorem take_range' : ∀ (k n s step : Nat),
    (List.range' s n step).take k = List.range' s (min k n) step
  | k, 0, s, step => by simp
  | 0, n + 1, s, step => by simp
  | k + 1, n + 1, s, step => by
    rw [List.range'_succ, List.take_succ_cons,
      take_range' k n (s + step) step, Nat.succ_min_succ, List.range'_succ]

theorem write_chunks_flatten (standard : List (List CellValue)) (bs : Nat)
    (hbs : 1 ≤ bs) : (write_chunks standard bs).flatten = standard := by
  rw [write_chunks, pyRange, if_neg (by omega)]
  rw [range'_chunks_flatten standard bs _ 0 (by
    rw [Nat.sub_zero, Nat.zero_add]
    exact ceil_mul_cover standard.length bs hbs)]
  exact List.drop_zero standard

theorem mapE_ok_map {α β γ : Type} {f : α → Except String β} {m : β → γ} {g : α → γ}
    (hfg : ∀ a b, f a = .ok b → m b = g a) :
    ∀ (l : List α) (ys : List β), mapE f l = .ok ys → ys.map m = l.map g := by
  intro l
  induction l with
  | nil => intro ys h; simp only [mapE] at h; cases h; simp
  | cons x xs ih =>
    intro ys h
    simp only [mapE] at h
    cases hfx : f x with
    | error e => rw [hfx] at h; cases h
    | ok y =>
      rw [hfx] at h
      cases hrec : mapE f xs with
      | error e => rw [hrec] at h; cases h
      | ok zs =>
        rw [hrec] at h
        cases h
        simp only [List.map_cons, hfg x y hfx, ih zs hrec]

theorem mapE_ok_of_all {α β : Type} {f : α → Except String β} {g : α → β} :
    ∀ (l : List α), (∀ a ∈ l, f a = .ok (g a)) → mapE f l = .ok (l.map g) := by
  intro l
  induction l with
  | nil => intro _; rfl
  | cons x xs ih =>
    intro hall
    simp only [mapE, hall x (List.mem_cons_self x xs),
      ih (fun a ha => hall a (List.mem_cons_of_mem x ha)), List.map_cons]

/-- Claim C1: write-mode batch planning. The slicing of batch_write_multi_data
produces ceil(rowCount / batchSize) chunks of at most batchSize rows whose
concatenation in issue order is exactly the sliced grid, each planned start
row is the parsed origin row plus the number of rows in all earlier chunks,
a successful plan carries exactly those chunks as payload values, and writing
250 rows from C10 with batchSize 100 gives origins C10, C110, C210 with row
counts 100, 100 and 50. -/
theorem claim_C1 :
    (∀ (standard : List (List CellValue)) (bs : Nat), 1 ≤ bs →
      (write_chunks standard bs).length = (standard.length + bs - 1) / bs ∧
      (write_chunks standard bs).flatten = standard ∧
      (∀ c ∈ write_chunks standard bs, c.length ≤ bs) ∧
      (∀ (sn k : Nat), k < (write_chunks standard bs).length →
        (write_origins sn standard.length bs)[k]? =
          some (sn + (((write_chunks standard bs).take k).map List.length).sum))) ∧
    (∀ (sid loc : String) (rows : List (List CellValue)) (bs : Nat) (ps : List Payload),
      batch_write_plan sid loc (.lists rows) bs = .ok ps →
      ps.map Payload.values = write_chunks (sanitizeGrid rows) bs) ∧
    batch_write_plan "S" "C10" (.lists (List.replicate 250 [CellValue.num 1])) 100 =
      .ok [⟨"S!C10:C109", List.replicate 100 [CellValue.num 1]⟩,
           ⟨"S!C110:C209", List.replicate 100 [CellValue.num 1]⟩,
           ⟨"S!C210:C259", List.replicate 50 [CellValue.num 1]⟩] := by
  refine ⟨?_, ?_, by rfl⟩
  · intro standard bs hbs
    have hstep : bs ≠ 0 := by omega
    have hn : (write_chunks standard bs).length = (standard.length + bs - 1) / bs := by
      rw [write_chunks, List.length_map, pyRange_length _ _ _ hstep, Nat.sub_zero]
    refine ⟨hn, write_chunks_flatten standard bs hbs, ?_, ?_⟩
    · intro c hc
      rw [write_chunks] at hc
      obtain ⟨i, _, rfl⟩ := List.mem_map.mp hc
      rw [List.length_take]
      exact Nat.min_le_left bs _
    · intro sn k hk
      rw [hn] at hk
      have hbk : bs * k < standard.length := mul_lt_of_lt_ceil hbs hk
      have hsum : (((write_chunks standard bs).take k).map List.length).sum = bs * k := by
        rw [← List.length_flatten, write_chunks, pyRange, if_neg hstep, ← List.map_take,
          take_range', Nat.min_eq_left (by rw [Nat.sub_zero]; omega),
          range'_chunks_take_flatten, List.drop_zero, List.length_take]
        omega
      rw [hsum, write_origins, pyRange, if_neg hstep, List.getElem?_map,
        List.getElem?_range' 0 bs (by rw [Nat.sub_zero]; exact hk)]
      simp
  · intro sid loc rows bs ps h
    simp only [batch_write_plan, formatInput] at h
    cases hv : rowLenCheck rows with
    | error e => rw [hv] at h; cases h
    | ok u =>
      rw [hv] at h
      cases hp : parse_start_loc loc with
      | none => rw [hp] at h; cases h
      | some g =>
        rw [hp] at h
        rw [write_chunks]
        refine mapE_ok_map ?_ _ ps h
        intro a b hab
        cases hc : complete_data_range (g.1 ++ Nat.repr (g.2 + a))
            ((List.take bs (List.drop a (sanitizeGrid rows)))) with
        | error e => rw [hc] at hab; cases hab
        | ok dr => rw [hc] at hab; cases hab; rfl

/-- Witness for claim C1: a three-row grid with batch size two splits into
chunks that concatenate back to the grid, and the second chunk's origin row
is the origin plus the rows of the first chunk. -/
theorem claim_C1_witness :
    (write_chunks [[CellValue.num 1], [CellValue.num 2], [CellValue.num 3]] 2).flatten =
      [[CellValue.num 1], [CellValue.num 2], [CellValue.num 3]] ∧
    (write_origins 5 3 2)[1]? = some (5 +
      (((write_chunks [[CellValue.num 1], [CellValue.num 2], [CellValue.num 3]] 2).take 1).map
        List.length).sum) := by
  have h := claim_C1.1 [[CellValue.num 1], [CellValue.num 2], [CellValue.num 3]] 2 (by decide)
  exact ⟨h.2.1, h.2.2.2 5 1 (by decide)⟩

/-- Embeds the JSON body of a response from the values endpoint: the fields
code and msg that the retry loop inspects. -/
structure RemoteResponse where
  code : Int
  msg : String

/-- Embeds the outcome of the per-batch retry loop of batch_write_multi_data.
Each outcome records how many times the endpoint was invoked and the
durations slept between attempts, in order. -/
inductive RetryOutcome where
  | success (invocations : Nat) (sleeps : List Nat)
  | fatalTooLarge (invocations : Nat) (sleeps : List Nat)
  | fatalExhausted (code : Int) (msg : String) (invocations : Nat) (sleeps : List Nat)
  | fellThrough (sleeps : List Nat)
deriving DecidableEq, Repr

/-- Embeds the hard-coded attempt ceiling of the loop. -/
def max_attempts : Nat := 5

/-- Embeds the body of the attempt loop of batch_write_multi_data: code 0
breaks out as success, code 90227 raises at once, any other code sleeps
10 * (attempt + 1) and retries while attempts remain, and the last attempt
raises with the observed code and message. The remote is modelled as a
function from the attempt number to the response it returns. -/
def retryPutGo (remote : Nat → RemoteResponse) (maxAttempts : Nat) :
    List Nat → List Nat → RetryOutcome
  | [], sleeps => .fellThrough sleeps
  | a :: rest, sleeps =>
    let r := remote a
    if r.code = 0 then .success (a + 1) sleeps
    else if r.code = 90227 then .fatalTooLarge (a + 1) sleeps
    else if a < maxAttempts - 1 then
      retryPutGo remote maxAttempts rest (sleeps ++ [10 * (a + 1)])
    else .fatalExhausted r.code r.msg (a + 1) sleeps

/-- Embeds one batch send of batch_write_multi_data: the attempt loop over
range(max_attempts) with no sleeps yet recorded. -/
def send_batch (remote : Nat → RemoteResponse) : RetryOutcome :=
  retryPutGo remote max_attempts (List.range max_attempts) []

/-- Claim C2: per-batch retry policy. Code 0 at any attempt short-circuits
as an immediate success after the failed attempts before it, each preceded
by a sleep of 10 * (attempt + 1); code 90227 on the first attempt is fatal
after exactly one invocation with no sleep; five other non-zero codes
exhaust the attempts and become fatal with the last observed code and
message after sleeps 10, 20, 30, 40; and a remote failing transiently twice
then succeeding is invoked exactly three times. -/
theorem claim_C2 : ∀ (remote : Nat → RemoteResponse),
    (∀ j, j < 5 → (∀ k, k < j → (remote k).code ≠ 0 ∧ (remote k).code ≠ 90227) →
      (remote j).code = 0 →
      send_batch remote = .success (j + 1) ((List.range j).map (fun k => 10 * (k + 1)))) ∧
    ((remote 0).code = 90227 → send_batch remote = .fatalTooLarge 1 []) ∧
    ((∀ k, k < 5 → (remote k).code ≠ 0 ∧ (remote k).code ≠ 90227) →
      send_batch remote =
        .fatalExhausted (remote 4).code (remote 4).msg 5 [10, 20, 30, 40]) ∧
    (((remote 0).code ≠ 0 ∧ (remote 0).code ≠ 90227) →
      ((remote 1).code ≠ 0 ∧ (remote 1).code ≠ 90227) → (remote 2).code = 0 →
      send_batch remote = .success 3 [10, 20]) := by
  intro remote
  refine ⟨?_, ?_, ?_, ?_⟩
  · intro j hj hpre hj0
    interval_cases j
    · simp [send_batch, retryPutGo, max_attempts, hj0]
    · have h0 := hpre 0 (by omega)
      simp [send_batch, retryPutGo, max_attempts, hj0, h0.1, h0.2] <;> decide
    · have h0 := hpre 0 (by omega)
      have h1 := hpre 1 (by omega)
      simp [send_batch, retryPutGo, max_attempts, hj0, h0.1, h0.2, h1.1, h1.2] <;> decide
    · have h0 := hpre 0 (by omega)
      have h1 := hpre 1 (by omega)
      have h2 := hpre 2 (by omega)
      simp [send_batch, retryPutGo, max_attempts, hj0, h0.1, h0.2, h1.1, h1.2, h2.1,
        h2.2] <;> decide
    · have h0 := hpre 0 (by omega)
      have h1 := hpre 1 (by omega)
      have h2 := hpre 2 (by omega)
      have h3 := hpre 3 (by omega)
      simp [send_batch, retryPutGo, max_attempts, hj0, h0.1, h0.2, h1.1, h1.2, h2.1,
        h2.2, h3.1, h3.2] <;> decide
  · intro h0
    simp [send_batch, retryPutGo, max_attempts, h0]
  · intro hall
    have h0 := hall 0 (by omega)
    have h1 := hall 1 (by omega)
    have h2 := hall 2 (by omega)
    have h3 := hall 3 (by omega)
    have h4 := hall 4 (by omega)
    simp [send_batch, retryPutGo, max_attempts, h0.1, h0.2, h1.1, h1.2, h2.1, h2.2,
      h3.1, h3.2, h4.1, h4.2]
  · intro h0 h1 h2
    simp [send_batch, retryPutGo, max_attempts, h0.1, h0.2, h1.1, h1.2, h2]

/-- Witness for claim C2: a remote that fails twice with a retryable code
and then succeeds is invoked exactly three times after sleeping 10 and 20,
and a remote that always answers 90227 fails fatally after one invocation. -/
theorem claim_C2_witness :
    send_batch (fun k => if k < 2 then ⟨7, "busy"⟩ else ⟨0, "ok"⟩) =
      .success 3 [10, 20] ∧
    send_batch (fun _ => ⟨90227, "too large"⟩) = .fatalTooLarge 1 [] := by
  constructor
  · exact (claim_C2 (fun k => if k < 2 then ⟨7, "busy"⟩ else ⟨0, "ok"⟩)).2.2.2
      (by constructor <;> decide) (by constructor <;> decide) (by decide)
  · exact (claim_C2 (fun _ => ⟨90227, "too large"⟩)).2.1 (by decide)

theorem dedup_const : ∀ (l : List Nat) (c : Nat),
    (∀ x ∈ l, x = c) → l ≠ [] → l.dedup = [c]
  | [], _, _, h => absurd rfl h
  | a :: t, c, hall, _ => by
    have ha : a = c := hall a (List.mem_cons_self a t)
    subst ha
    cases t with
    | nil => rfl
    | cons b t2 =>
      have hb : b = a := hall b (by simp)
      rw [List.dedup_cons_of_mem (by rw [hb]; exact List.mem_cons_self a t2)]
      exact dedup_const (b :: t2) a
        (fun x hx => hall x (List.mem_cons_of_mem a hx)) (by simp)

theorem rowLenCheck_ok_of (g : List (List CellValue)) (c : Nat) (hc : 0 < c)
    (hne : g ≠ []) (hall : ∀ r ∈ g, r.length = c) : rowLenCheck g = .ok () := by
  rw [rowLenCheck]
  rw [if_neg (by
    simp only [List.any_eq_true, not_exists]
    intro r
    rw [not_and]
    intro hr
    rw [List.isEmpty_iff, ← List.length_eq_zero]
    have := hall r hr
    omega)]
  rw [if_neg (by
    rw [dedup_const (g.map List.length) c
      (by intro x hx; obtain ⟨r, hr, rfl⟩ := List.mem_map.mp hx; exact hall r hr)
      (by simpa using hne)]
    simp)]

theorem rowLenCheck_ok_inv (g : List (List CellValue)) (h : rowLenCheck g = .ok ()) :
    g ≠ [] ∧ ∃ c, 0 < c ∧ ∀ r ∈ g, r.length = c := by
  rw [rowLenCheck] at h
  by_cases h1 : g.any List.isEmpty
  · rw [if_pos h1] at h; cases h
  · rw [if_neg h1] at h
    by_cases h2 : (g.map List.length).dedup.length ≠ 1
    · rw [if_pos h2] at h; cases h
    · rw [not_ne_iff, List.length_eq_one] at h2
      obtain ⟨c, hc⟩ := h2
      have hmem : ∀ x ∈ g.map List.length, x = c := by
        intro x hx
        have : x ∈ (g.map List.length).dedup := List.mem_dedup.mpr hx
        rw [hc] at this
        simpa using this
      have hne : g ≠ [] := by
        intro hg
        rw [hg] at hc
        simp at hc
      obtain ⟨r0, t0, rfl⟩ := List.exists_cons_of_ne_nil hne
      have hr0 : r0.length = c := hmem r0.length (by simp)
      have hr0pos : 0 < r0.length := by
        rw [List.any_eq_true] at h1
        push_neg at h1
        have h3 := h1 r0 (List.mem_cons_self r0 t0)
        simp only [ne_eq, List.isEmpty_iff] at h3
        exact List.length_pos.mpr h3
      exact ⟨hne, c, by omega,
        fun r hr => hmem r.length (List.mem_map.mpr ⟨r, hr, rfl⟩)⟩

theorem order_to_col_lt {n : Nat} (h : n < 702) :
    order_to_col n = some (A_ZZ_list.getD n (String.mk [])) := by
  have h2 : n < A_ZZ_list.length := by rw [A_ZZ_list_length]; exact h
  rw [order_to_col, List.get?_eq_getElem?, List.getElem?_eq_getElem h2,
    List.getD_eq_getElem?_getD, List.getElem?_eq_getElem h2]
  rfl

theorem order_to_col_ge {n : Nat} (h : 702 ≤ n) : order_to_col n = none := by
  rw [order_to_col, List.get?_eq_getElem?]
  exact List.getElem?_eq_none (by rw [A_ZZ_list_length]; exact h)

/-- Claim C4: range computation. For a parsed origin whose column belongs to
the enumeration and a non-empty rectangular grid, complete_data_range ends
the range at the origin row plus rowCount minus one and at the column whose
ordinal is the origin ordinal plus colCount minus one, and it fails with the
out-of-range error when that ordinal leaves the 702-column enumeration. -/
theorem claim_C4 : ∀ (loc L : String) (r : Nat) (g : List (List CellValue)) (c : Nat),
    parse_start_loc loc = some (L, r) →
    L ∈ A_ZZ_list →
    g ≠ [] → 0 < c → (∀ row ∈ g, row.length = c) →
    (A_ZZ_list.indexOf L + c - 1 < 702 →
      complete_data_range loc g =
        .ok (L ++ Nat.repr r ++ ":" ++
             A_ZZ_list.getD (A_ZZ_list.indexOf L + c - 1) (String.mk []) ++
             Nat.repr (r + g.length - 1))) ∧
    (702 ≤ A_ZZ_list.indexOf L + c - 1 →
      complete_data_range loc g =
        .error "Failed: complete_data_range. end column out of range") := by
  intro loc L r g c hparse hL hne hc hall
  have hok := rowLenCheck_ok_of g c hc hne hall
  have hcol : (g.headD []).length = c := by
    obtain ⟨r0, t0, rfl⟩ := List.exists_cons_of_ne_nil hne
    exact hall r0 (List.mem_cons_self r0 t0)
  constructor
  · intro hlt
    simp only [complete_data_range, hparse, hok, hcol, col_to_order, if_pos hL,
      order_to_col_lt hlt]
  · intro hge
    simp only [complete_data_range, hparse, hok, hcol, col_to_order, if_pos hL,
      order_to_col_ge hge]

/-- Witness for claim C4: origin A1 with a 3-row by 2-column grid gives a
range ending at B3, and origin ZZ1 with the same grid runs past column 702
and fails with the out-of-range error. -/
theorem claim_C4_witness :
    complete_data_range "A1"
      [[CellValue.num 1, CellValue.null], [CellValue.num 2, CellValue.null],
       [CellValue.num 3, CellValue.null]] = .ok "A1:B3" ∧
    complete_data_range "ZZ1"
      [[CellValue.num 1, CellValue.null], [CellValue.num 2, CellValue.null],
       [CellValue.num 3, CellValue.null]] =
      .error "Failed: complete_data_range. end column out of range" := by
  constructor
  · have h := (claim_C4 "A1" "A" 1
      [[CellValue.num 1, CellValue.null], [CellValue.num 2, CellValue.null],
       [CellValue.num 3, CellValue.null]] 2
      (by decide) (by decide) (by decide) (by decide)
      (by intro row hrow; fin_cases hrow <;> rfl)).1 (by decide)
    rw [h]; rfl
  · exact (claim_C4 "ZZ1" "ZZ" 1
      [[CellValue.num 1, CellValue.null], [CellValue.num 2, CellValue.null],
       [CellValue.num 3, CellValue.null]] 2
      (by decide) (by decide) (by decide) (by decide)
      (by intro row hrow; fin_cases hrow <;> rfl)).2 (by decide)

theorem batch_plan_values {sid loc : String} {rows : List (List CellValue)} {bs : Nat}
    {ps : List Payload} (h : batch_write_plan sid loc (.lists rows) bs = .ok ps) :
    ps.map Payload.values = write_chunks (sanitizeGrid rows) bs := by
  simp only [batch_write_plan, formatInput] at h
  cases hv : rowLenCheck rows with
  | error e => rw [hv] at h; cases h
  | ok u =>
    rw [hv] at h
    cases hp : parse_start_loc loc with
    | none => rw [hp] at h; cases h
    | some g =>
      rw [hp] at h
      rw [write_chunks]
      refine mapE_ok_map ?_ _ ps h
      intro a b hab
      cases hc : complete_data_range (g.1 ++ Nat.repr (g.2 + a))
          ((List.take bs (List.drop a (sanitizeGrid rows)))) with
      | error e => rw [hc] at hab; cases hab
      | ok dr => rw [hc] at hab; cases hab; rfl

/-- Claim C6: sanitization before transmission. The sanitize step turns every
null-like cell into the empty string and leaves every other cell unchanged;
a successful write payload carries exactly the sanitized grid as its values,
with its range computed from the sanitized grid, and the concatenated values
of a successful batch plan are exactly the sanitized grid. -/
theorem claim_C6 :
    (sanitize CellValue.null = CellValue.text "") ∧
    (∀ v : CellValue, v ≠ CellValue.null → sanitize v = v) ∧
    (∀ (sid loc : String) (rows : List (List CellValue)) (p : Payload),
      write_multi_payload sid loc (.lists rows) = .ok p →
      p.values = rows.map (List.map sanitize) ∧
      ∃ dr, complete_data_range loc (rows.map (List.map sanitize)) = .ok dr ∧
        p.range = sid ++ "!" ++ dr) ∧
    (∀ (sid loc : String) (rows : List (List CellValue)) (bs : Nat) (ps : List Payload),
      1 ≤ bs → batch_write_plan sid loc (.lists rows) bs = .ok ps →
      (ps.map Payload.values).flatten = rows.map (List.map sanitize)) := by
  refine ⟨rfl, ?_, ?_, ?_⟩
  · intro v hv
    cases v with
    | null => exact absurd rfl hv
    | text s => rfl
    | num n => rfl
  · intro sid loc rows p h
    simp only [write_multi_payload, formatInput] at h
    cases hv : rowLenCheck rows with
    | error e => rw [hv] at h; cases h
    | ok u =>
      rw [hv] at h
      cases hc : complete_data_range loc (sanitizeGrid rows) with
      | error e => rw [hc] at h; cases h
      | ok dr =>
        rw [hc] at h
        cases h
        exact ⟨rfl, dr, hc, rfl⟩
  · intro sid loc rows bs ps hbs h
    rw [batch_plan_values h, write_chunks_flatten _ _ hbs]
    rfl

/-- Witness for claim C6: a concrete grid with a null cell yields a payload
whose values replace the null by the empty string and whose range was
computed from the sanitized grid. -/
theorem claim_C6_witness :
    sanitize (CellValue.num 7) = CellValue.num 7 ∧
    ((write_multi_payload "S" "A1" (.lists [[CellValue.null, CellValue.num 7]])).map
        Payload.values = .ok [[CellValue.text "", CellValue.num 7]] ∧
     (batch_write_plan "S" "A1" (.lists [[CellValue.null, CellValue.num 7]]) 1).map
        (fun ps => (ps.map Payload.values).flatten) =
          .ok [[CellValue.text "", CellValue.num 7]]) := by
  refine ⟨claim_C6.2.1 (CellValue.num 7) (by decide), ?_, ?_⟩
  · have h := (claim_C6.2.2.1 "S" "A1" [[CellValue.null, CellValue.num 7]]
      ⟨"S!A1:B1", [[CellValue.text "", CellValue.num 7]]⟩ rfl).1
    rw [show write_multi_payload "S" "A1" (.lists [[CellValue.null, CellValue.num 7]]) =
      .ok ⟨"S!A1:B1", [[CellValue.text "", CellValue.num 7]]⟩ from rfl]
    rw [Except.map, h]
    rfl
  · have h := claim_C6.2.2.2 "S" "A1" [[CellValue.null, CellValue.num 7]] 1
      [⟨"S!A1:B1", [[CellValue.text "", CellValue.num 7]]⟩] (by decide) rfl
    rw [show batch_write_plan "S" "A1" (.lists [[CellValue.null, CellValue.num 7]]) 1 =
      .ok [⟨"S!A1:B1", [[CellValue.text "", CellValue.num 7]]⟩] from rfl]
    rw [Except.map, h]
    rfl

theorem dedup_length_ne_one {l : List Nat} {x y : Nat} (hx : x ∈ l) (hy : y ∈ l)
    (hxy : x ≠ y) : l.dedup.length ≠ 1 := by
  intro h
  rw [List.length_eq_one] at h
  obtain ⟨c, hc⟩ := h
  have h1 : x = c := by
    have hm := List.mem_dedup.mpr hx
    rw [hc] at hm
    simpa using hm
  have h2 : y = c := by
    have hm := List.mem_dedup.mpr hy
    rw [hc] at hm
    simpa using hm
  exact hxy (h1.trans h2.symm)

/-- Claim C7: grid validation. A dict input with two value sequences of
different lengths is rejected by to_2d_list and so by write_multi_data; a
two-dimensional list input with an empty row or two rows of different
lengths is rejected by write_multi_data; and every input that passes the
checks yields a payload whose rows are non-empty and all of one length. -/
theorem claim_C7 : ∀ (sid loc : String),
    (∀ (items : List (CellValue × List CellValue)),
      (∃ a ∈ items, ∃ b ∈ items, a.2.length ≠ b.2.length) →
      to_2d_list (.dict items) =
        .error "Failed: to_2d_list. all dict values must have the same length" ∧
      write_multi_payload sid loc (.dict items) =
        .error "Failed: to_2d_list. all dict values must have the same length") ∧
    (∀ (rows : List (List CellValue)),
      ((∃ r ∈ rows, r = []) ∨ ∃ r1 ∈ rows, ∃ r2 ∈ rows, r1.length ≠ r2.length) →
      ∃ e, write_multi_payload sid loc (.lists rows) = .error e) ∧
    (∀ (input : InputData) (p : Payload),
      write_multi_payload sid loc input = .ok p →
      p.values ≠ [] ∧ ∃ c, 0 < c ∧ ∀ row ∈ p.values, row.length = c) := by
  intro sid loc
  refine ⟨?_, ?_, ?_⟩
  · intro items hpair
    obtain ⟨a, ha, b, hb, hab⟩ := hpair
    have hd : ((items.map Prod.snd).map List.length).dedup.length ≠ 1 := by
      refine dedup_length_ne_one ?_ ?_ hab
      · exact List.mem_map.mpr ⟨a.2, List.mem_map.mpr ⟨a, ha, rfl⟩, rfl⟩
      · exact List.mem_map.mpr ⟨b.2, List.mem_map.mpr ⟨b, hb, rfl⟩, rfl⟩
    have hto : to_2d_list (.dict items) =
        .error "Failed: to_2d_list. all dict values must have the same length" := by
      simp only [to_2d_list]
      rw [if_pos hd]
    refine ⟨hto, ?_⟩
    simp only [write_multi_payload, formatInput, hto]
  · intro rows hbad
    by_cases h1 : rows.any List.isEmpty
    · refine ⟨"row data must not be empty", ?_⟩
      simp only [write_multi_payload, formatInput, rowLenCheck]
      rw [if_pos h1]
    · have hd : ((rows.map List.length).dedup.length ≠ 1) := by
        cases hbad with
        | inl hempty =>
          obtain ⟨r, hr, hrnil⟩ := hempty
          exact absurd (List.any_eq_true.mpr
            ⟨r, hr, by rw [hrnil]; rfl⟩) h1
        | inr hpair =>
          obtain ⟨r1, hr1, r2, hr2, h12⟩ := hpair
          exact dedup_length_ne_one (List.mem_map.mpr ⟨r1, hr1, rfl⟩)
            (List.mem_map.mpr ⟨r2, hr2, rfl⟩) h12
      refine ⟨"all rows must have the same length", ?_⟩
      simp only [write_multi_payload, formatInput, rowLenCheck]
      rw [if_neg h1, if_pos hd]
  · intro input p h
    simp only [write_multi_payload] at h
    cases hfi : formatInput input with
    | error e => rw [hfi] at h; cases h
    | ok formatted =>
      rw [hfi] at h
      dsimp only [] at h
      cases hv : rowLenCheck formatted with
      | error e => rw [hv] at h; cases h
      | ok u =>
        rw [hv] at h
        cases hc : complete_data_range loc (sanitizeGrid formatted) with
        | error e => rw [hc] at h; cases h
        | ok dr =>
          rw [hc] at h
          cases h
          obtain ⟨hne, c, hc0, hall⟩ := rowLenCheck_ok_inv formatted hv
          refine ⟨by simpa [sanitizeGrid] using hne, c, hc0, ?_⟩
          intro row hrow
          simp only [sanitizeGrid] at hrow
          obtain ⟨r, hr, rfl⟩ := List.mem_map.mp hrow
          rw [List.length_map]
          exact hall r hr

/-- Witness for claim C7: a dict with value lengths two and one is rejected,
a list grid with ragged rows is rejected, and a valid two-row payload is
rectangular with positive width. -/
theorem claim_C7_witness :
    to_2d_list (.dict [(CellValue.text "a", [CellValue.num 1, CellValue.num 2]),
                       (CellValue.text "b", [CellValue.num 3])]) =
      .error "Failed: to_2d_list. all dict values must have the same length" ∧
    (∃ e, write_multi_payload "S" "A1"
      (.lists [[CellValue.num 1, CellValue.num 2], [CellValue.num 3]]) = .error e) ∧
    ([[CellValue.num 1], [CellValue.num 2]] ≠ ([] : List (List CellValue)) ∧
      ∃ c, 0 < c ∧ ∀ row ∈ [[CellValue.num 1], [CellValue.num 2]], row.length = c) := by
  refine ⟨?_, ?_, ?_⟩
  · exact ((claim_C7 "S" "A1").1
      [(CellValue.text "a", [CellValue.num 1, CellValue.num 2]),
       (CellValue.text "b", [CellValue.num 3])]
      ⟨(CellValue.text "a", [CellValue.num 1, CellValue.num 2]), by simp,
       (CellValue.text "b", [CellValue.num 3]), by simp, by decide⟩).1
  · exact (claim_C7 "S" "A1").2.1
      [[CellValue.num 1, CellValue.num 2], [CellValue.num 3]]
      (Or.inr ⟨[CellValue.num 1, CellValue.num 2], by simp,
        [CellValue.num 3], by simp, by decide⟩)
  · exact (claim_C7 "S" "A1").2.2
      (.lists [[CellValue.num 1], [CellValue.num 2]])
      ⟨"S!A1:A2", [[CellValue.num 1], [CellValue.num 2]]⟩ rfl

/-- Claim C10: the empty grid. complete_data_range on a parseable origin,
write_multi_data, and batch_write_multi_data all reject the zero-row grid
with the equal-length validation error before computing any range, because
the set of row lengths of the empty collection does not have exactly one
element. -/
theorem claim_C10 : ∀ (sid loc : String) (bs : Nat),
    ((parse_start_loc loc).isSome →
      complete_data_range loc [] = .error "all rows must have the same length") ∧
    write_multi_payload sid loc (.lists []) =
      .error "all rows must have the same length" ∧
    batch_write_plan sid loc (.lists []) bs =
      .error "all rows must have the same length" := by
  intro sid loc bs
  refine ⟨?_, rfl, rfl⟩
  intro hp
  obtain ⟨⟨sl, sn⟩, hg⟩ := Option.isSome_iff_exists.mp hp
  simp only [complete_data_range, hg]
  rfl

/-- Witness for claim C10 at the origin A1: all three entry points reject
the empty grid with the equal-length validation error. -/
theorem claim_C10_witness :
    complete_data_range "A1" [] = .error "all rows must have the same length" ∧
    write_multi_payload "S" "A1" (.lists []) =
      .error "all rows must have the same length" ∧
    batch_write_plan "S" "A1" (.lists []) 100 =
      .error "all rows must have the same length" :=
  ⟨(claim_C10 "S" "A1" 100).1 (by decide),
   (claim_C10 "S" "A1" 100).2.1, (claim_C10 "S" "A1" 100).2.2⟩

/-- Claim C9: header rows in write planning. For a normalized labeled grid,
header row first, the batch slicing emits the header exactly once, at the
head of the first chunk; the chunk stream concatenates to the header
followed by the data rows in order, every chunk holds at most batchSize
rows, and the chunk count is ceil((1 + dataRows) / batchSize). A DataFrame
normalizes to its label row followed by its value rows, and a dict
normalizes to its key row followed by reconstructed sample rows. -/
theorem claim_C9 :
    (∀ (hdr : List CellValue) (data : List (List CellValue)) (bs : Nat), 1 ≤ bs →
      (write_chunks (sanitizeGrid (hdr :: data)) bs).flatten =
        List.map sanitize hdr :: sanitizeGrid data ∧
      (∀ c ∈ write_chunks (sanitizeGrid (hdr :: data)) bs, c.length ≤ bs) ∧
      (∃ c0 rest, write_chunks (sanitizeGrid (hdr :: data)) bs = c0 :: rest ∧
        c0.head? = some (List.map sanitize hdr)) ∧
      (write_chunks (sanitizeGrid (hdr :: data)) bs).length =
        (1 + data.length + bs - 1) / bs) ∧
    (∀ (cols : List CellValue) (rows : List (List CellValue)),
      to_2d_list (.df cols rows) = .ok (cols :: rows)) ∧
    (∀ (items : List (CellValue × List CellValue)) (g : List (List CellValue)),
      to_2d_list (.dict items) = .ok g →
      ∃ data, g = (items.map Prod.fst) :: data) := by
  refine ⟨?_, fun cols rows => rfl, ?_⟩
  · intro hdr data bs hbs
    have hstep : bs ≠ 0 := by omega
    have hlen : (sanitizeGrid (hdr :: data)).length = data.length + 1 := by
      simp [sanitizeGrid]
    refine ⟨?_, ?_, ?_, ?_⟩
    · rw [write_chunks_flatten _ _ hbs]
      rfl
    · intro c hc
      rw [write_chunks] at hc
      obtain ⟨i, _, rfl⟩ := List.mem_map.mp hc
      rw [List.length_take]
      exact Nat.min_le_left bs _
    · have hq : 1 ≤ ((sanitizeGrid (hdr :: data)).length - 0 + bs - 1) / bs := by
        rw [Nat.le_div_iff_mul_le (by omega), hlen]
        omega
      obtain ⟨m, hm⟩ := Nat.exists_eq_add_of_le hq
      rw [write_chunks, pyRange, if_neg hstep, hm, Nat.add_comm 1 m, List.range'_succ,
        List.map_cons]
      refine ⟨_, _, rfl, ?_⟩
      obtain ⟨b, rfl⟩ := Nat.exists_eq_add_of_le hbs
      rw [List.drop_zero, show sanitizeGrid (hdr :: data) =
        List.map sanitize hdr :: sanitizeGrid data from rfl, Nat.add_comm 1 b,
        List.take_succ_cons, List.head?_cons]
    · rw [write_chunks, List.length_map, pyRange_length _ _ _ hstep, Nat.sub_zero, hlen,
        Nat.add_comm 1 data.length]
  · intro items g h
    simp only [to_2d_list] at h
    by_cases hd : ((items.map Prod.snd).map List.length).dedup.length ≠ 1
    · rw [if_pos hd] at h; cases h
    · rw [if_neg hd] at h
      cases h
      exact ⟨_, rfl⟩

/-- Witness for claim C9: a labeled three-row grid with batch size two keeps
its header once at the head of the first chunk, and a concrete dict
normalizes with its key row first. -/
theorem claim_C9_witness :
    (write_chunks (sanitizeGrid ([CellValue.text "h"] ::
        [[CellValue.num 1], [CellValue.num 2]])) 2).flatten =
      List.map sanitize [CellValue.text "h"] ::
        sanitizeGrid [[CellValue.num 1], [CellValue.num 2]] ∧
    (∃ c0 rest, write_chunks (sanitizeGrid ([CellValue.text "h"] ::
        [[CellValue.num 1], [CellValue.num 2]])) 2 = c0 :: rest ∧
      c0.head? = some (List.map sanitize [CellValue.text "h"])) ∧
    (∃ data, ([(CellValue.text "k", [CellValue.num 5])].map Prod.fst) :: data =
      (CellValue.text "k" :: []) :: data ∧
      to_2d_list (.dict [(CellValue.text "k", [CellValue.num 5])]) =
        .ok ([CellValue.text "k"] :: data)) := by
  have h := claim_C9.1 [CellValue.text "h"] [[CellValue.num 1], [CellValue.num 2]] 2
    (by decide)
  refine ⟨h.1, h.2.2.1, ?_⟩
  obtain ⟨data, hdata⟩ := claim_C9.2.2 [(CellValue.text "k", [CellValue.num 5])]
    ([CellValue.text "k"] :: [[CellValue.num 5]]) rfl
  exact ⟨[[CellValue.num 5]], rfl, rfl⟩

/-- Embeds the window construction of load_sheet_data_to_df: for each batch
start produced by range(row_id_start, row_id_end + 1, batch_size), the
inclusive row window capped at row_id_end. -/
def read_windows (rowStart rowEnd batch_size : Nat) : List (Nat × Nat) :=
  (pyRange rowStart (rowEnd + 1) batch_size).map
    (fun s => (s, min (s + batch_size - 1) rowEnd))

/-- Embeds the hard-coded retry ceiling of the read loop. -/
def max_retries : Nat := 5

/-- Embeds the body of the read retry loop of load_sheet_data_to_df: an
attempt that raises sleeps and retries while attempts remain; the last
attempt re-raises. The remote is modelled as a function from the attempt
number to the rows it returns, none standing for a raised exception. -/
def readRetryGo (resp : Nat → Option (List (List CellValue))) :
    List Nat → Except String (List (List CellValue))
  | [] => .error "Failed: load_sheet_data_to_df. no attempts"
  | a :: rest =>
    match resp a with
    | some rows => .ok rows
    | none =>
      if a < max_retries - 1 then readRetryGo resp rest
      else .error "Failed: load_sheet_data_to_df. request failed"

/-- Embeds one batched window fetch with its retry loop. -/
def fetch_window (resp : Nat → Option (List (List CellValue))) :
    Except String (List (List CellValue)) :=
  readRetryGo resp (List.range max_retries)

/-- Embeds the data-collection phase of load_sheet_data_to_df: when reading
does not begin at row 1, one non-retried header request for row 1 runs
first and its rows start the accumulator; then each planned window is
fetched through the retry loop and appended in plan order. -/
def load_assemble (headerResp : Option (List (List CellValue)))
    (resp : Nat × Nat → Nat → Option (List (List CellValue)))
    (rowStart rowEnd batch_size : Nat) : Except String (List (List CellValue)) :=
  match (if 1 < rowStart then
      (match headerResp with
       | some h => Except.ok h
       | none => Except.error "Failed: load_sheet_data_to_df. header request failed")
    else Except.ok []) with
  | .error e => .error e
  | .ok hdr =>
    match mapE (fun w => fetch_window (resp w)) (read_windows rowStart rowEnd batch_size) with
    | .error e => .error e
    | .ok datas => .ok (hdr ++ datas.flatten)

theorem read_windows_cover (re bs : Nat) (hbs : 1 ≤ bs) :
    ∀ (n s : Nat), re + 1 ≤ s + bs * n →
      ((List.range' s n bs).map
        (fun x => List.range' x (min (x + bs - 1) re + 1 - x))).flatten =
      List.range' s (re + 1 - s)
  | 0, s, hcov => by
    have : re + 1 - s = 0 := by omega
    simp [this]
  | n + 1, s, hcov => by
    rw [List.range'_succ, List.map_cons, List.flatten_cons,
      read_windows_cover re bs hbs n (s + bs) (by rw [Nat.mul_succ] at hcov; omega)]
    by_cases h : s + bs ≤ re + 1
    · have hmin : min (s + bs - 1) re = s + bs - 1 := min_eq_left (by omega)
      have h1 : min (s + bs - 1) re + 1 - s = bs := by rw [hmin]; omega
      rw [h1]
      have h2 : re + 1 - (s + bs) + bs = re + 1 - s := by omega
      rw [← h2]
      exact List.range'_append_1 s bs (re + 1 - (s + bs))
    · have hmin : min (s + bs - 1) re = re := min_eq_right (by omega)
      have h1 : re + 1 - (s + bs) = 0 := by omega
      have h2 : min (s + bs - 1) re + 1 - s = re + 1 - s := by rw [hmin]
      rw [h1, h2, List.range'_zero, List.append_nil]

/-- Claim C5: read-mode batch planning. The planner emits the contiguous
windows starting at rowStart and stepping by batchSize, each capped at
rowEnd; the window count is ceil((rowEnd - rowStart + 1) / batchSize); the
rows of the windows concatenate to exactly the requested row span with no
gaps or overlaps; when rowStart exceeds 1 the separately fetched header
rows are prepended to the assembled result before the window data, a failed
header request fails at once, and reading rows 5 to 24 with batchSize 10
gives exactly the windows 5-14 and 15-24. -/
theorem claim_C5 :
    (∀ (rs re bs : Nat), rs ≤ re → 1 ≤ bs →
      (read_windows rs re bs).length = (re - rs + 1 + bs - 1) / bs ∧
      (∀ (k : Nat), k < (read_windows rs re bs).length →
        (read_windows rs re bs)[k]? =
          some (rs + bs * k, min (rs + bs * k + bs - 1) re)) ∧
      ((read_windows rs re bs).map
        (fun w => List.range' w.1 (w.2 + 1 - w.1))).flatten =
        List.range' rs (re + 1 - rs)) ∧
    (∀ (hdrRows : List (List CellValue))
       (resp : Nat × Nat → Nat → Option (List (List CellValue)))
       (dataOf : Nat × Nat → List (List CellValue)) (rs re bs : Nat),
      (∀ w ∈ read_windows rs re bs, resp w 0 = some (dataOf w)) →
      (1 < rs →
        load_assemble (some hdrRows) resp rs re bs =
          .ok (hdrRows ++ ((read_windows rs re bs).map dataOf).flatten)) ∧
      (¬ 1 < rs →
        load_assemble (some hdrRows) resp rs re bs =
          .ok (((read_windows rs re bs).map dataOf).flatten)) ∧
      (1 < rs →
        load_assemble none resp rs re bs =
          .error "Failed: load_sheet_data_to_df. header request failed")) ∧
    read_windows 5 24 10 = [(5, 14), (15, 24)] := by
  refine ⟨?_, ?_, by decide⟩
  · intro rs re bs hrsre hbs
    have hstep : bs ≠ 0 := by omega
    refine ⟨?_, ?_, ?_⟩
    · rw [read_windows, List.length_map, pyRange_length _ _ _ hstep]
      congr 1
      omega
    · intro k hk
      rw [read_windows, List.length_map, pyRange, if_neg hstep, List.length_range'] at hk
      rw [read_windows, pyRange, if_neg hstep, List.getElem?_map,
        List.getElem?_range' rs bs hk]
      rfl
    · rw [read_windows, List.map_map]
      have hcov : re + 1 ≤ rs + bs * ((re + 1 - rs + bs - 1) / bs) := by
        have h := ceil_mul_cover (re + 1 - rs) bs hbs
        generalize bs * ((re + 1 - rs + bs - 1) / bs) = p at h ⊢
        omega
      have := read_windows_cover re bs hbs ((re + 1 - rs + bs - 1) / bs) rs hcov
      rw [pyRange, if_neg hstep]
      exact this
  · intro hdrRows resp dataOf rs re bs hresp
    have hmap : mapE (fun w => fetch_window (resp w)) (read_windows rs re bs) =
        .ok ((read_windows rs re bs).map dataOf) := by
      refine mapE_ok_of_all _ ?_
      intro w hw
      have h5 : List.range max_retries = [0, 1, 2, 3, 4] := rfl
      rw [fetch_window, h5, readRetryGo, hresp w hw]
    refine ⟨?_, ?_, ?_⟩
    · intro hrs
      rw [load_assemble, if_pos hrs]
      dsimp only []
      rw [hmap]
    · intro hrs
      rw [load_assemble, if_neg hrs]
      dsimp only []
      rw [hmap]
      simp
    · intro hrs
      rw [load_assemble, if_pos hrs]

/-- Witness for claim C5: reading rows 5 to 24 with batchSize 10 plans two
windows, and with a one-row header plus ten rows per window the assembled
result has 21 rows, header first. -/
theorem claim_C5_witness :
    (read_windows 5 24 10).length = (24 - 5 + 1 + 10 - 1) / 10 ∧
    (load_assemble (some [[CellValue.text "h"]])
      (fun w _ => some ((List.range' w.1 (w.2 + 1 - w.1)).map
        (fun i => [CellValue.num (Int.ofNat i)]))) 5 24 10).map List.length =
      .ok 21 := by
  have hmain := claim_C5.1 5 24 10 (by decide) (by decide)
  have hasm := (claim_C5.2.1 [[CellValue.text "h"]]
    (fun w _ => some ((List.range' w.1 (w.2 + 1 - w.1)).map
      (fun i => [CellValue.num (Int.ofNat i)])))
    (fun w => (List.range' w.1 (w.2 + 1 - w.1)).map
      (fun i => [CellValue.num (Int.ofNat i)]))
    5 24 10 (fun w hw => rfl)).1 (by decide)
  refine ⟨hmain.1, ?_⟩
  rw [hasm]
  rfl

/-- Embeds the column-label test of the cleanup in load_sheet_data_to_df: a
label is dropped when it is None, the empty string, or a NaN-like value. -/
def badLabel (v : CellValue) : Bool := isNa v || v == CellValue.text ""

/-- Embeds the set of column positions that survive the label cleanup: the
positions of the header row whose label is not dropped. -/
def keepIdx (header : List CellValue) : List Nat :=
  (List.range header.length).filter
    (fun j => !(badLabel (header.getD j CellValue.null)))

/-- Embeds the cleanup and projection tail of load_sheet_data_to_df on the
concatenated grid: row 0 is the label row; rows that are NaN-like in every
column are dropped; columns with dropped labels are removed; a non-empty
target list projects onto the columns carrying the requested labels in the
requested order, and a missing label is a KeyError. -/
def read_cleanup (data_all : List (List CellValue)) (targets : List String) :
    Except String (List CellValue × List (List CellValue)) :=
  match data_all with
  | [] => .error "Failed: load_sheet_data_to_df. no data"
  | header :: data =>
    if targets.isEmpty then
      .ok ((keepIdx header).map (fun j => header.getD j CellValue.null),
           (data.filter (fun r => !(r.all isNa))).map
             (fun r => (keepIdx header).map (fun j => r.getD j CellValue.null)))
    else if targets.all (fun t => ((keepIdx header).map
        (fun j => header.getD j CellValue.null)).contains (CellValue.text t)) then
      .ok ((targets.flatMap (fun t => (keepIdx header).filter
             (fun j => header.getD j CellValue.null == CellValue.text t))).map
               (fun j => header.getD j CellValue.null),
           (data.filter (fun r => !(r.all isNa))).map
             (fun r => (targets.flatMap (fun t => (keepIdx header).filter
               (fun j => header.getD j CellValue.null == CellValue.text t))).map
                 (fun j => r.getD j CellValue.null)))
    else .error "Failed: load_sheet_data_to_df. column not found"

theorem filter_range_getD (P : CellValue → Bool) :
    ∀ (header r : List CellValue), r.length = header.length →
      ((List.range header.length).filter
          (fun j => P (header.getD j CellValue.null))).map
        (fun j => r.getD j CellValue.null) =
      ((header.zip r).filter (fun p => P p.1)).map Prod.snd := by
  intro header
  induction header with
  | nil =>
    intro r hr
    simp only [List.length_nil] at hr
    rw [List.length_eq_zero] at hr
    subst hr
    rfl
  | cons a h2 ih =>
    intro r hr
    cases r with
    | nil => simp at hr
    | cons b r2 =>
      have hr2 : r2.length = h2.length := by simpa using hr
      have hmapped :
          ((List.range h2.length).map Nat.succ).filter
              (fun j => P ((a :: h2).getD j CellValue.null)) =
            ((List.range h2.length).filter
              (fun j => P (h2.getD j CellValue.null))).map Nat.succ := by
        rw [List.filter_map]
        rfl
      have hcomp : ((fun j => (b :: r2).getD j CellValue.null) ∘ Nat.succ) =
          (fun j => r2.getD j CellValue.null) := rfl
      rw [List.length_cons, List.range_succ_eq_map, List.filter_cons]
      by_cases hPa : P a
      · rw [if_pos (by simpa using hPa), hmapped, List.map_cons, List.map_map, hcomp,
          List.zip_cons_cons, List.filter_cons, if_pos (by simpa using hPa),
          List.map_cons]
        rw [ih r2 hr2]
        rfl
      · rw [if_neg (by simpa using hPa), hmapped, List.map_map, hcomp,
          List.zip_cons_cons, List.filter_cons, if_neg (by simpa using hPa)]
        exact ih r2 hr2

theorem filter_zip_self (P : CellValue → Bool) :
    ∀ l : List CellValue,
      ((l.zip l).filter (fun p => P p.1)).map Prod.snd = l.filter P := by
  intro l
  induction l with
  | nil => rfl
  | cons a t ih =>
    rw [List.zip_cons_cons, List.filter_cons, List.filter_cons]
    by_cases hPa : P a
    · rw [if_pos (by simpa using hPa), if_pos hPa, List.map_cons, ih]
    · rw [if_neg (by simpa using hPa), if_neg hPa, ih]

theorem flatMap_eq_map {α β : Type} {f : α → List β} {g : α → β} :
    ∀ l : List α, (∀ t ∈ l, f t = [g t]) → l.flatMap f = l.map g := by
  intro l
  induction l with
  | nil => intro _; rfl
  | cons a t ih =>
    intro h
    rw [List.flatMap_cons, h a (List.mem_cons_self a t),
      ih (fun x hx => h x (List.mem_cons_of_mem a hx)), List.map_cons,
      List.singleton_append]

/-- Claim C8: read assembly cleanup. On the concatenated grid whose first
row holds the labels, the cleanup keeps exactly the rows that are not
NaN-like in every column and exactly the columns whose label survives, in
order; with no targets the result is the label-filtered grid; with targets
whose labels each match exactly one kept column the result projects onto
the requested labels in the requested order, keeping one value per target
and all surviving rows; a requested label absent after cleanup is a
column-not-found error. -/
theorem claim_C8 : ∀ (header : List CellValue) (data : List (List CellValue))
    (targets : List String),
    (∀ r ∈ data, r.length = header.length) →
    (read_cleanup (header :: data) [] =
      .ok (header.filter (fun v => !(badLabel v)),
           (data.filter (fun r => !(r.all isNa))).map
             (fun r => ((header.zip r).filter
               (fun p => !(badLabel p.1))).map Prod.snd))) ∧
    (targets ≠ [] →
      (∃ t ∈ targets, CellValue.text t ∉ header.filter (fun v => !(badLabel v))) →
      read_cleanup (header :: data) targets =
        .error "Failed: load_sheet_data_to_df. column not found") ∧
    (targets ≠ [] →
      (∀ t ∈ targets,
        (header.filter (fun v => !(badLabel v))).count (CellValue.text t) = 1) →
      ∃ rows3, read_cleanup (header :: data) targets =
        .ok (targets.map CellValue.text, rows3) ∧
        rows3.length = (data.filter (fun r => !(r.all isNa))).length) := by
  intro header data targets hlen
  have hlab : (keepIdx header).map (fun j => header.getD j CellValue.null) =
      header.filter (fun v => !(badLabel v)) := by
    rw [keepIdx, filter_range_getD (fun v => !(badLabel v)) header header rfl]
    exact filter_zip_self (fun v => !(badLabel v)) header
  refine ⟨?_, ?_, ?_⟩
  · simp only [read_cleanup, List.isEmpty_nil, if_true]
    rw [hlab]
    simp only [Prod.mk.injEq, Except.ok.injEq]
    refine ⟨trivial, ?_⟩
    apply List.map_congr_left
    intro r hr
    have hrlen : r.length = header.length := hlen r (List.mem_filter.mp hr).1
    rw [keepIdx]
    exact filter_range_getD (fun v => !(badLabel v)) header r hrlen
  · intro hne hex
    obtain ⟨t, ht, htnot⟩ := hex
    simp only [read_cleanup]
    rw [if_neg (by simp [List.isEmpty_iff, hne]), if_neg ?_]
    intro hall
    have hc := List.all_eq_true.mp hall t ht
    have hmem : CellValue.text t ∈ (keepIdx header).map
        (fun j => header.getD j CellValue.null) := List.elem_iff.mp hc
    rw [hlab] at hmem
    exact htnot hmem
  · intro hne hcount
    have hall : targets.all (fun t => ((keepIdx header).map
        (fun j => header.getD j CellValue.null)).contains (CellValue.text t)) = true := by
      rw [List.all_eq_true]
      intro t ht
      have h1 : CellValue.text t ∈ header.filter (fun v => !(badLabel v)) :=
        List.count_pos_iff.mp (by rw [hcount t ht]; omega)
      exact List.elem_iff.mpr (by rw [hlab]; exact h1)
    have hsel : (targets.flatMap (fun t => (keepIdx header).filter
        (fun j => header.getD j CellValue.null == CellValue.text t))).map
          (fun j => header.getD j CellValue.null) = targets.map CellValue.text := by
      rw [List.map_flatMap]
      refine flatMap_eq_map targets ?_
      intro t ht
      have hcomp : (fun j => header.getD j CellValue.null == CellValue.text t) =
          ((· == CellValue.text t) ∘ (fun j => header.getD j CellValue.null)) := rfl
      rw [hcomp, ← List.filter_map, hlab, List.filter_beq, hcount t ht,
        List.replicate_one]
    simp only [read_cleanup]
    rw [if_neg (by simp [List.isEmpty_iff, hne]), if_pos hall]
    refine ⟨(data.filter (fun r => !(r.all isNa))).map
      (fun r => (targets.flatMap (fun t => (keepIdx header).filter
        (fun j => header.getD j CellValue.null == CellValue.text t))).map
          (fun j => r.getD j CellValue.null)), ?_, ?_⟩
    · rw [hsel]
    · rw [List.length_map]

/-- Witness for claim C8: a three-column grid with a blank middle label and
one all-null row cleans to the two good columns and the one surviving row,
and projecting onto labels b then a returns them in that order. -/
theorem claim_C8_witness :
    read_cleanup ([CellValue.text "a", CellValue.text "", CellValue.text "b"] ::
        [[CellValue.num 1, CellValue.num 2, CellValue.num 3],
         [CellValue.null, CellValue.null, CellValue.null]]) [] =
      .ok ([CellValue.text "a", CellValue.text "b"],
           [[CellValue.num 1, CellValue.num 3]]) ∧
    (∃ rows3, read_cleanup ([CellValue.text "a", CellValue.text "", CellValue.text "b"] ::
        [[CellValue.num 1, CellValue.num 2, CellValue.num 3],
         [CellValue.null, CellValue.null, CellValue.null]]) ["b", "a"] =
      .ok ([CellValue.text "b", CellValue.text "a"], rows3) ∧ rows3.length = 1) := by
  have h := claim_C8 [CellValue.text "a", CellValue.text "", CellValue.text "b"]
    [[CellValue.num 1, CellValue.num 2, CellValue.num 3],
     [CellValue.null, CellValue.null, CellValue.null]] ["b", "a"]
    (by decide)
  constructor
  · rw [h.1]
    rfl
  · obtain ⟨rows3, heq, hlen3⟩ := h.2.2 (by decide) (by decide)
    refine ⟨rows3, ?_, ?_⟩
    · rw [heq]
      rfl
    · rw [hlen3]
      rfl
